import Mathlib

/-!
Verification development for the core of a neural-network graph compiler
(`tract`-style core). We shallowly embed the three source files
`src/core/src/ops/array/rm_dims.rs`, `src/core/src/infer/mod.rs` and
`src/core/src/model/translator.rs` and prove the specified properties.
-/

set_option autoImplicit false

/-- Runtime datum type tag carried by tensors and facts. -/
inductive DatumType where
  | f32
  | f64
  | i32
  | u8
deriving DecidableEq

/-- A tensor value, abstracted to its runtime type and shape (the numeric
payload is irrelevant to the shape/type properties verified here). -/
structure Tensor where
  dt : DatumType
  shape : List Nat
deriving DecidableEq

/-- Error kinds of `TractError` relevant here: the dedicated streaming-tensor
signal, and every other error collapsed into one constructor. -/
inductive ErrKind where
  | streamTensor
  | other
deriving DecidableEq

/-! ## RmDims (inference operator), from `src/core/src/ops/array/rm_dims.rs` -/

/-- Rust `RmDims::compute_shape`: keep the dimensions whose index is not listed in
`axes` (source: `input.iter().enumerate().filter(|(ix, _d)| !self.axes.contains(ix)).map(|(_ix, d)| d.clone()).collect()`). -/
def RmDims.compute_shape (axes : List Nat) (input : List Nat) : List Nat :=
  (input.enum.filter (fun p => !(axes.contains p.1))).map Prod.snd

/-- Spec-side description of axis removal: walk the shape with an index
counter, dropping every dimension whose index is in `axes` and keeping the
remaining dimensions in their original order. -/
def removeAxesSpec (axes : List Nat) : List Nat → Nat → List Nat
  | [], _ => []
  | d :: rest, i =>
    if i ∈ axes then removeAxesSpec axes rest (i + 1)
    else d :: removeAxesSpec axes rest (i + 1)

/-- The constraints emitted by `RmDims::rules` on the single output:
output datum type equals input datum type; output rank equals input rank
minus the number of removed axes; each removed input dimension equals 1;
and, deferred until the input shape is concrete, the output shape equals
`compute_shape` of the input shape. -/
inductive RmDimsConstraint where
  | outDtEqInDt
  | outRankEqInRankMinus (k : Nat)
  | inDimIsOne (axis : Nat)
  | givenInShape (axes : List Nat)
deriving DecidableEq

/-- Rust `RmDims::rules`: the list of constraints registered on the solver, in
registration order. -/
def RmDims.rules (axes : List Nat) : List RmDimsConstraint :=
  [RmDimsConstraint.outDtEqInDt, RmDimsConstraint.outRankEqInRankMinus axes.length]
    ++ axes.map RmDimsConstraint.inDimIsOne
    ++ [RmDimsConstraint.givenInShape axes]

/-- Satisfaction of one constraint, for a concrete input fact `(dt, shape)`
and a concrete candidate output fact `(odt, oshape)`. The rank constraint is
over signed integers, as in the source (`(&inputs[0].rank).bex() - self.axes.len() as i32`). -/
def RmDimsConstraint.sat : RmDimsConstraint → DatumType × List Nat → DatumType × List Nat → Prop
  | RmDimsConstraint.outDtEqInDt, (dt, _), (odt, _) => odt = dt
  | RmDimsConstraint.outRankEqInRankMinus k, (_, shape), (_, oshape) =>
      (oshape.length : Int) = (shape.length : Int) - (k : Int)
  | RmDimsConstraint.inDimIsOne axis, (_, shape), _ => shape.get? axis = some 1
  | RmDimsConstraint.givenInShape axes, (_, shape), (_, oshape) =>
      oshape = RmDims.compute_shape axes shape

instance (c : RmDimsConstraint) (i o : DatumType × List Nat) : Decidable (c.sat i o) := by
  cases c <;> simp [RmDimsConstraint.sat] <;> infer_instance

/-- Result of running the rule solver of `RmDims` on a concrete input fact:
the unique output fact satisfying all constraints, or `none` on
contradiction (a listed axis whose dimension is not 1, or a rank mismatch). -/
def RmDims.solve (axes : List Nat) (dt : DatumType) (shape : List Nat) :
    Option (DatumType × List Nat) :=
  if (axes.all fun a => shape.get? a == some 1)
      && (((RmDims.compute_shape axes shape).length : Int)
            == (shape.length : Int) - (axes.length : Int))
  then some (dt, RmDims.compute_shape axes shape)
  else none

/-- Rust `RmDims::to_typed`: the axes are sorted ascending and one `RmDim` node is
wired per axis in descending order; the returned list records the `axis`
field of each created `RmDim` node, in creation order. -/
def insertAxisAsc (a : Nat) : List Nat → List Nat
  | [] => [a]
  | b :: rest => if a ≤ b then a :: b :: rest else b :: insertAxisAsc a rest

def sortAxesAsc : List Nat → List Nat
  | [] => []
  | a :: rest => insertAxisAsc a (sortAxesAsc rest)

/-- The chain of `RmDim` nodes created by `RmDims::to_typed` (their `axis`
fields, in creation order: sorted ascending, then reversed). -/
def RmDims.to_typed (axes : List Nat) : List Nat :=
  (sortAxesAsc axes).reverse

/-! ### Bridging lemmas for `compute_shape` -/

/-! ## RmDim (typed operator), from `src/core/src/ops/array/rm_dims.rs` -/

/-- Failure modes: a returned error value (an `Err` of `TractResult`) versus a
Rust panic (out-of-bounds index, missing map key, failed assertion). -/
inductive Failure where
  | err
  | panic
deriving DecidableEq

/-- One entry of `Invariants`: matching (input-axis, output-axis) positions,
repetition period and disposability flag. -/
structure AxisInfo where
  inputs : List (Option Nat)
  outputs : List (Option Nat)
  period : Nat
  disposable : Bool
deriving DecidableEq

/-- The loop body of `RmDim::invariants`: iterate `in_` over the input axes
with a mutable `out` counter; when `self.axis != out`, push the pair
`(in_, out)` with period 1, disposable, and increment `out`. -/
def RmDim.invariantsLoop (axis : Nat) : List Nat → Nat → List AxisInfo
  | [], _ => []
  | in_ :: rest, out =>
    if axis ≠ out then
      ⟨[some in_], [some out], 1, true⟩ :: RmDim.invariantsLoop axis rest (out + 1)
    else
      RmDim.invariantsLoop axis rest out

/-- Rust `RmDim::invariants` for input rank `rank` (the rank of the fact on the
node's single input outlet). -/
def RmDim.invariants (axis rank : Nat) : List AxisInfo :=
  RmDim.invariantsLoop axis (List.range rank) 0

/-- A fully-resolved fact: datum type and exact shape. -/
structure TypedFact where
  datum_type : DatumType
  shape : List Nat
deriving DecidableEq

/-- Modelled from the spec: `ShapeInfo::remove_axis` and `Tensor::remove_axis`
are collaborators outside this core's excerpt ("a concrete tensor value type:
immutable, ..., multi-dimensional"); axis removal deletes the indexed
dimension from the shape and fails when the axis is out of range. -/
def removeAxisShape (shape : List Nat) (axis : Nat) : Except Failure (List Nat) :=
  if axis < shape.length then Except.ok (shape.eraseIdx axis) else Except.error Failure.err

/-- Rust `RmDim::output_facts`: clone the first input fact's shape, remove the
axis, keep the datum type (`TypedFact::dt_shape(inputs[0].datum_type, shape)`).
Indexing an empty input slice is a panic. -/
def RmDim.output_facts (axis : Nat) (inputs : List TypedFact) : Except Failure (List TypedFact) :=
  match inputs with
  | [] => Except.error Failure.panic
  | input :: _ => do
    let shape ← removeAxisShape input.shape axis
    Except.ok [⟨input.datum_type, shape⟩]

/-- Rust `Tensor::remove_axis`, lifted from `removeAxisShape` (see its comment). -/
def Tensor.remove_axis (t : Tensor) (axis : Nat) : Except Failure Tensor := do
  let shape ← removeAxisShape t.shape axis
  Except.ok ⟨t.dt, shape⟩

/-- Rust `RmDim` as `StatelessOp`: `args_1!` demands exactly one input (else an
error), then removes the axis from the tensor. -/
def RmDim.eval (axis : Nat) (inputs : List Tensor) : Except Failure (List Tensor) :=
  match inputs with
  | [t] => do
    let t' ← t.remove_axis axis
    Except.ok [t']
  | _ => Except.error Failure.err

/-! ## Claim theorems for the RmDims / RmDim operators -/

/-! ## InferenceOp::infer, from `src/core/src/infer/mod.rs` -/

/-- An inference fact: optional datum-type tag, optional shape, optional
concrete value. -/
structure InferenceFact where
  datum_type : Option DatumType
  shape : Option (List Nat)
  value : Option Tensor
deriving DecidableEq

/-- Rust `InferenceFact::from(tensor)` (the `t.into()` used by eager evaluation):
a fully concrete fact. -/
def factOfTensor (t : Tensor) : InferenceFact :=
  ⟨some t.dt, some t.shape, some t⟩

/-- Rust `value.concretize()` on every inferred input fact: `some` exactly when
every input value is concrete (`is_concrete` for all). -/
def concretizeAll (facts : List InferenceFact) : Option (List Tensor) :=
  facts.mapM (fun f => f.value)

/-- Rust `InferenceOp::infer`. Parameters: `stateless` is `self.as_stateless()`
(the pure evaluator when the operator has one), `infer_facts` is the
declarative-rules pass. After the rules, if the operator is stateless and
every inferred input value is concrete, evaluate eagerly: on success return
the evaluated outputs (as facts) instead of the rule-derived output facts; a
streaming-tensor error is swallowed; any other evaluation error is
propagated. -/
def inferOp
    (stateless : Option (List Tensor → Except ErrKind (List Tensor)))
    (infer_facts : List InferenceFact → List InferenceFact → List InferenceFact →
      Except ErrKind (List InferenceFact × List InferenceFact × List InferenceFact))
    (inputs outputs observed : List InferenceFact) :
    Except ErrKind (List InferenceFact × List InferenceFact × List InferenceFact) :=
  match infer_facts inputs outputs observed with
  | Except.error e => Except.error e
  | Except.ok (infered_inputs, infered_outputs, observed) =>
  match stateless with
  | some eval_fn =>
    match concretizeAll infered_inputs with
    | some input_values =>
      match eval_fn input_values with
      | Except.ok values =>
          Except.ok (infered_inputs, values.map factOfTensor, observed)
      | Except.error e =>
          match e with
          | ErrKind.streamTensor => Except.ok (infered_inputs, infered_outputs, observed)
          | ErrKind.other => Except.error e
    | none => Except.ok (infered_inputs, infered_outputs, observed)
  | none => Except.ok (infered_inputs, infered_outputs, observed)

/-- A concrete pure evaluator for the C2 witness: drop the leading dimension
of every input tensor. -/
def dropLeadingAxisEval (ts : List Tensor) : Except ErrKind (List Tensor) :=
  Except.ok (ts.map fun t => Tensor.mk t.dt (t.shape.eraseIdx 0))

/-! ## Translator, from `src/core/src/model/translator.rs` -/

/-- Identifier of one produced tensor value: `(node, slot)`. -/
structure OutletId where
  node : Nat
  slot : Nat
deriving DecidableEq

/-- The source graph data used by `translate_model_with_mappings`: the
topological order returned by `eval_order` (an unused declared input's node
does not appear in it), the declared input and output outlets in interface
order, and the outlet label table. -/
structure SModel where
  evalOrder : List Nat
  inputs : List OutletId
  outputs : List OutletId
  outletLabel : OutletId → Option Nat

/-- The old-outlet-to-new-outlet mapping (`HashMap<OutletId, OutletId>`). -/
def Mapping : Type := OutletId → Option OutletId

/-- Rust `HashMap::insert`. -/
def Mapping.update (m : Mapping) (k v : OutletId) : Mapping :=
  fun x => if x = k then some v else m x

/-- The target model: its node store is abstracted as `σ` (the translation
strategy owns its structure); the declared interface and the outlet label
table are what the translator itself writes. -/
structure TargetModel (σ : Type) where
  state : σ
  inputs : List OutletId
  outputs : List OutletId
  labels : OutletId → Option Nat

/-- A per-node translation strategy (`Translate::translate_node`): reads the
source, the node id, the target node store and the current mapping; emits the
new outlets for the node's outputs and the updated target store, or fails. -/
def Strategy (σ : Type) : Type :=
  SModel → Nat → σ → Mapping → Except Failure (List OutletId × σ)

/-- The `for (ix, outlet) in outlets.into_iter().enumerate()` loop: record
`(node.id, ix) ↦ outlet` and copy the source outlet label onto the new
outlet. -/
def insertOutlets {σ : Type} (source : SModel) (nodeId : Nat) :
    List OutletId → Nat → TargetModel σ × Mapping → TargetModel σ × Mapping
  | [], _, tm => tm
  | o :: rest, ix, (t, m) =>
    let m' := m.update ⟨nodeId, ix⟩ o
    let t' :=
      match source.outletLabel ⟨nodeId, ix⟩ with
      | some l => { t with labels := fun x => if x = o then some l else t.labels x }
      | none => t
    insertOutlets source nodeId rest (ix + 1) (t', m')

/-- One iteration of the main topological walk: translate the node and record
its outlets in the mapping. -/
def translateOneNode {σ : Type} (strat : Strategy σ) (source : SModel)
    (tm : TargetModel σ × Mapping) (oldId : Nat) :
    Except Failure (TargetModel σ × Mapping) :=
  match strat source oldId tm.1.state tm.2 with
  | Except.error e => Except.error e
  | Except.ok (outlets, st') =>
      Except.ok (insertOutlets source oldId outlets 0 ({ tm.1 with state := st' }, tm.2))

/-- One iteration of the useless-input loop (`for i in source.input_outlets()?`):
if the declared input is already mapped, do nothing; otherwise translate its
node and map the input outlet to `outlets[0]` — indexing an empty outlet list
is a panic, and the input's own slot index is ignored. -/
def translateUselessInput {σ : Type} (strat : Strategy σ) (source : SModel)
    (tm : TargetModel σ × Mapping) (i : OutletId) :
    Except Failure (TargetModel σ × Mapping) :=
  match tm.2 i with
  | some _ => Except.ok tm
  | none =>
    match strat source i.node tm.1.state tm.2 with
    | Except.error e => Except.error e
    | Except.ok ([], _) => Except.error Failure.panic
    | Except.ok (o :: _, st') =>
        Except.ok ({ tm.1 with state := st' }, tm.2.update i o)

/-- Rust `outlets.iter().map(|o| mapping[&o]).collect()`: indexing a missing key in
the map is a panic. -/
def lookupAll (m : Mapping) : List OutletId → Except Failure (List OutletId)
  | [] => Except.ok []
  | o :: rest =>
    match m o with
    | none => Except.error Failure.panic
    | some v =>
      match lookupAll m rest with
      | Except.error e => Except.error e
      | Except.ok vs => Except.ok (v :: vs)

/-- Rust `Translate::translate_model_with_mappings`: walk the topological order
translating each node; then translate any declared input the walk left
unmapped; finally rebuild the target's declared inputs and outputs by mapping
the source's through the recorded mapping, in source order. -/
def translate_model_with_mappings {σ : Type} (strat : Strategy σ) (init : σ)
    (source : SModel) : Except Failure (TargetModel σ × Mapping) :=
  match source.evalOrder.foldlM (translateOneNode strat source)
      ((⟨init, [], [], fun _ => none⟩ : TargetModel σ), (fun _ => none : Mapping)) with
  | Except.error e => Except.error e
  | Except.ok tm1 =>
    match source.inputs.foldlM (translateUselessInput strat source) tm1 with
    | Except.error e => Except.error e
    | Except.ok tm2 =>
      match lookupAll tm2.2 source.inputs with
      | Except.error e => Except.error e
      | Except.ok newInputs =>
        match lookupAll tm2.2 source.outputs with
        | Except.error e => Except.error e
        | Except.ok newOutputs =>
            Except.ok ({ tm2.1 with inputs := newInputs, outputs := newOutputs }, tm2.2)

/-- Strategy for the C1 witness: emit one fresh outlet per node. -/
def wStrategy : Strategy Unit := fun _ nodeId _ _ => Except.ok ([⟨nodeId + 10, 0⟩], ())

/-- Source graph for the C1 witness: one node (id 0), one declared input and
one declared output, both at outlet (0, 0). -/
def wSource : SModel := ⟨[0], [⟨0, 0⟩], [⟨0, 0⟩], fun _ => none⟩

/-- The computed translation of `wSource` under `wStrategy`. -/
def wTranslated : TargetModel Unit × Mapping :=
  match translate_model_with_mappings wStrategy () wSource with
  | Except.ok tm => tm
  | Except.error _ => (⟨(), [], [], fun _ => none⟩, fun _ => none)

/-- Strategy for the C10 witness: emit no outlets at all. -/
def c10Strategy : Strategy Unit := fun _ _ _ _ => Except.ok ([], ())

/-! ## RmDim::declutter and axis tracking,
from `src/core/src/ops/array/rm_dims.rs` -/

/-- Typed operators relevant to the axis-elision pass: `AddDim`, `RmDim`, and
an opaque stand-in for every other operator. -/
inductive TOp where
  | addDim (axis : Nat)
  | rmDim (axis : Nat)
  | other (tag : Nat)
deriving DecidableEq

/-- Identifier of one consumed value: `(node, slot)`. -/
structure InletId where
  node : Nat
  slot : Nat
deriving DecidableEq

/-- A typed node: id, operator, input outlets in order. -/
structure TNode where
  id : Nat
  op : TOp
  inputs : List OutletId

/-- A typed model: the node store and the topological order returned by
`eval_order`. -/
structure TModel where
  node : Nat → TNode
  evalOrder : List Nat

/-- Rust `op_as::<AddDim>()`. -/
def TOp.op_as_add_dim : TOp → Option Nat
  | TOp.addDim a => some a
  | _ => none

/-- Rust `op_as::<RmDim>()`. -/
def TOp.op_as_rm_dim : TOp → Option Nat
  | TOp.rmDim a => some a
  | _ => none

/-- Modelled from the spec: `AxisTracking::for_outlet_and_axis` lives outside
this excerpt; its result "maps every outlet transitively carrying the same
axis, and classifies boundary nodes as creators (introduce the axis) or
destructors (remove it)". -/
structure AxisTracking where
  outlets : OutletId → Option Nat
  creators : List OutletId
  destructors : List InletId

/-- One creator check of the declutter guard:
`model.node(c.node).op_as::<AddDim>().map(|ad| ad.axis == tracking.outlets[c]).unwrap_or(false)`;
indexing a missing tracked outlet panics. -/
def creatorIsMatchingAddDim (m : TModel) (tr : AxisTracking) (c : OutletId) :
    Except Failure Bool :=
  match (m.node c.node).op.op_as_add_dim with
  | some a =>
    match tr.outlets c with
    | some ax => Except.ok (a == ax)
    | none => Except.error Failure.panic
  | none => Except.ok false

/-- One destructor check of the declutter guard:
`model.node(c.node).op_as::<RmDim>().map(|ad| ad.axis == tracking.outlets[&model.node(c.node).inputs[0]]).unwrap_or(false)`. -/
def destructorIsMatchingRmDim (m : TModel) (tr : AxisTracking) (d : InletId) :
    Except Failure Bool :=
  match (m.node d.node).op.op_as_rm_dim with
  | some a =>
    match (m.node d.node).inputs with
    | [] => Except.error Failure.panic
    | i0 :: _ =>
      match tr.outlets i0 with
      | some ax => Except.ok (a == ax)
      | none => Except.error Failure.panic
  | none => Except.ok false

/-- Short-circuiting `iter().any(|x| !f(x))`. -/
def anyBadAux {α : Type} (f : α → Except Failure Bool) : List α → Except Failure Bool
  | [] => Except.ok false
  | c :: rest =>
    match f c with
    | Except.error e => Except.error e
    | Except.ok true => anyBadAux f rest
    | Except.ok false => Except.ok true

/-- Short-circuiting `iter().all(|x| f(x))`. -/
def allGoodAux {α : Type} (f : α → Except Failure Bool) : List α → Except Failure Bool
  | [] => Except.ok true
  | d :: rest =>
    match f d with
    | Except.error e => Except.error e
    | Except.ok true => allGoodAux f rest
    | Except.ok false => Except.ok false

/-- Rust `tracking.creators.iter().any(|c| !...)` of the declutter guard. -/
def anyCreatorBad (m : TModel) (tr : AxisTracking) : List OutletId → Except Failure Bool :=
  anyBadAux (creatorIsMatchingAddDim m tr)

/-- Rust `tracking.destructors.iter().all(|c| ...)` of the declutter guard. -/
def allDestructorsGood (m : TModel) (tr : AxisTracking) : List InletId → Except Failure Bool :=
  allGoodAux (destructorIsMatchingRmDim m tr)

/-- A staged `TypedModelPatch`, recorded as its wiring events: taps of base
outlets (each allocating a fresh patch node), wired nodes (single output),
and shunts redirecting base outlets. -/
structure TypedModelPatch where
  nextNode : Nat
  taps : List (Nat × OutletId)
  wires : List (Nat × TOp × List OutletId)
  shunts : List (OutletId × OutletId)

/-- Rust `TypedModelPatch::default()`. -/
def TypedModelPatch.empty : TypedModelPatch := ⟨0, [], [], []⟩

/-- Rust `patch.tap_model(model, outlet)`: allocate a source node in the patch for
a base outlet and return the new outlet. -/
def TypedModelPatch.tap_model (p : TypedModelPatch) (o : OutletId) :
    TypedModelPatch × OutletId :=
  (⟨p.nextNode + 1, p.taps ++ [(p.nextNode, o)], p.wires, p.shunts⟩, ⟨p.nextNode, 0⟩)

/-- Rust `patch.wire_node(name, op, inputs)`. -/
def TypedModelPatch.wire_node (p : TypedModelPatch) (op : TOp) (inputs : List OutletId) :
    TypedModelPatch × List OutletId :=
  (⟨p.nextNode + 1, p.taps, p.wires ++ [(p.nextNode, op, inputs)], p.shunts⟩,
    [⟨p.nextNode, 0⟩])

/-- Rust `patch.shunt_outside(outlet, to)`. -/
def TypedModelPatch.shunt_outside (p : TypedModelPatch) (o dst : OutletId) :
    TypedModelPatch :=
  ⟨p.nextNode, p.taps, p.wires, p.shunts ++ [(o, dst)]⟩

/-- Rust `RmDim::dispose_dummy_axis` from the source
(`RmDim::new(self.axis - (self.axis > axes[0].unwrap()) as usize)`); the
`AddDim` analogue and the default (`none`: keep the operator unchanged) are
modelled from the spec ("returns a rewritten copy of the operator with a
known-droppable axis eliminated and indices shifted"). -/
def TOp.dispose_dummy_axis : TOp → Nat → Option TOp
  | TOp.rmDim a, tracked => some (TOp.rmDim (a - (if tracked < a then 1 else 0)))
  | TOp.addDim a, tracked => some (TOp.addDim (a - (if tracked < a then 1 else 0)))
  | TOp.other _, _ => none

/-- The creators loop of `RmDim::declutter`: look up the tracked axis of the
creator's outlet, demand an `AddDim` introducing exactly it (`unreachable!`
otherwise, after the guard), tap its upstream source and map the creator's
output to the tap. -/
def declutterCreatorsStep (m : TModel) (tr : AxisTracking)
    (pm : TypedModelPatch × Mapping) (c : OutletId) :
    Except Failure (TypedModelPatch × Mapping) :=
  let node := m.node c.node
  match tr.outlets c with
  | none => Except.error Failure.panic
  | some axis =>
    match node.op.op_as_add_dim with
    | some a =>
      if a = axis then
        match node.inputs with
        | [] => Except.error Failure.panic
        | i0 :: _ =>
          let pw := TypedModelPatch.tap_model pm.1 i0
          Except.ok (pw.1, Mapping.update pm.2 ⟨node.id, 0⟩ pw.2)
      else Except.error Failure.panic
    | none => Except.error Failure.panic

/-- Rust `for i in &node.inputs { if !mapping.contains_key(&i) { .. tap .. } }`. -/
def tapMissingInputs : List OutletId → TypedModelPatch × Mapping →
    TypedModelPatch × Mapping
  | [], pm => pm
  | i :: rest, (p, mp) =>
    match mp i with
    | some _ => tapMissingInputs rest (p, mp)
    | none =>
      let pw := TypedModelPatch.tap_model p i
      tapMissingInputs rest (pw.1, Mapping.update mp i pw.2)

/-- Rust `for (ix, o) in outputs.into_iter().enumerate() { mapping.insert(...) }`. -/
def insertMappingOutlets (nodeId : Nat) : List OutletId → Nat → Mapping → Mapping
  | [], _, mp => mp
  | o :: rest, ix, mp =>
      insertMappingOutlets nodeId rest (ix + 1) (Mapping.update mp ⟨nodeId, ix⟩ o)

/-- The eval-order loop of `RmDim::declutter`: tap still-unmapped inputs, map
the node's inputs, skip nodes whose first input does not carry the tracked
axis, otherwise re-wire the node with its axis bookkeeping shifted by
`dispose_dummy_axis`. -/
def declutterEvalOrderStep (m : TModel) (tr : AxisTracking)
    (pm : TypedModelPatch × Mapping) (n : Nat) :
    Except Failure (TypedModelPatch × Mapping) :=
  let node := m.node n
  let pm1 := tapMissingInputs node.inputs pm
  match lookupAll pm1.2 node.inputs with
  | Except.error e => Except.error e
  | Except.ok inputs =>
    match node.inputs.head? >>= fun i => tr.outlets i with
    | none => Except.ok pm1
    | some axis =>
      let op := (node.op.dispose_dummy_axis axis).getD node.op
      let pw := TypedModelPatch.wire_node pm1.1 op inputs
      Except.ok (pw.1, insertMappingOutlets node.id pw.2 0 pm1.2)

/-- The destructors loop of `RmDim::declutter`: shunt every destructor that is
in the eval order to the (rewritten) source of its first input. -/
def declutterShuntStep (m : TModel) (mp : Mapping) (eo : List Nat)
    (p : TypedModelPatch) (des : InletId) : Except Failure TypedModelPatch :=
  if eo.contains des.node then
    let node := m.node des.node
    match node.inputs with
    | [] => Except.error Failure.panic
    | i0 :: _ =>
      match mp i0 with
      | some w => Except.ok (TypedModelPatch.shunt_outside p ⟨node.id, 0⟩ w)
      | none => Except.error Failure.panic
  else Except.ok p

/-- Rust `RmDim::declutter`, with the axis-tracking result passed in (the tracking
computation lives outside the excerpt, see `AxisTracking`): assert that this
node is a tracked destructor; return no patch if any creator is not an
`AddDim` introducing exactly the tracked axis or any destructor is not an
`RmDim` removing exactly the tracked axis; otherwise stage the rewrite. -/
def RmDim.declutter (m : TModel) (node : TNode) (tr : AxisTracking) :
    Except Failure (Option TypedModelPatch) :=
  if tr.destructors.contains ⟨node.id, 0⟩ then
    match anyCreatorBad m tr tr.creators with
    | Except.error e => Except.error e
    | Except.ok true => Except.ok none
    | Except.ok false =>
      match allDestructorsGood m tr tr.destructors with
      | Except.error e => Except.error e
      | Except.ok false => Except.ok none
      | Except.ok true =>
        match tr.creators.foldlM (declutterCreatorsStep m tr)
            (TypedModelPatch.empty, (fun _ => none : Mapping)) with
        | Except.error e => Except.error e
        | Except.ok pm0 =>
          match m.evalOrder.foldlM (declutterEvalOrderStep m tr) pm0 with
          | Except.error e => Except.error e
          | Except.ok pm1 =>
            match tr.destructors.foldlM (declutterShuntStep m pm1.2 m.evalOrder) pm1.1 with
            | Except.error e => Except.error e
            | Except.ok p => Except.ok (some p)
  else Except.error Failure.panic

/-- Witness model for C4: node 5 is not an `AddDim` (it is an opaque
operator) yet is reported as a creator of the tracked axis; node 1 is the
`RmDim` destructor. -/
def c4Model : TModel :=
  ⟨fun n => if n = 5 then ⟨5, TOp.other 0, []⟩ else ⟨1, TOp.rmDim 0, [⟨5, 0⟩]⟩, [5, 1]⟩

/-- The destructor node of the C4 witness. -/
def c4Node : TNode := ⟨1, TOp.rmDim 0, [⟨5, 0⟩]⟩

/-- Tracking result of the C4 witness: the axis is carried by outlet (5, 0),
created by node 5 and destroyed at inlet (1, 0). -/
def c4Tracking : AxisTracking :=
  ⟨fun o => if o = ⟨5, 0⟩ then some 0 else none, [⟨5, 0⟩], [⟨1, 0⟩]⟩

/-! ## Theorems -/

theorem compute_shape_enumFrom (axes : List Nat) (shape : List Nat) (n : Nat) :
    ((shape.enumFrom n).filter (fun p => !(axes.contains p.1))).map Prod.snd
      = removeAxesSpec axes shape n := by
  induction shape generalizing n with
  | nil => rfl
  | cons d rest ih =>
    have ih' := ih (n + 1)
    simp only [List.contains_eq_any_beq, List.any_eq_true, beq_iff_eq] at ih' ⊢
    simp only [List.enumFrom, List.filter, removeAxesSpec]
    by_cases h : n ∈ axes
    · have hx : (axes.any fun x => n == x) = true := by
        rw [List.any_eq_true]; exact ⟨n, h, by simp⟩
      rw [hx]
      simpa [h] using ih'
    · have hx : (axes.any fun x => n == x) = false := by
        rw [List.any_eq_false]
        intro x hxm
        simp only [beq_iff_eq]
        intro he
        exact h (he ▸ hxm)
      rw [hx]
      simp [h, ih']

/-- Rust `compute_shape` removes exactly the listed axes, preserving the order of
the remaining dimensions. -/
theorem compute_shape_eq_removeAxesSpec (axes : List Nat) (shape : List Nat) :
    RmDims.compute_shape axes shape = removeAxesSpec axes shape 0 := by
  unfold RmDims.compute_shape
  rw [List.enum]
  exact compute_shape_enumFrom axes shape 0

/-- Characterization of the solver result on a concrete input fact. -/
theorem RmDims.solve_eq_some_iff (axes : List Nat) (dt : DatumType) (shape : List Nat)
    (o : DatumType × List Nat) :
    RmDims.solve axes dt shape = some o
      ↔ o = (dt, RmDims.compute_shape axes shape)
        ∧ (∀ a ∈ axes, shape.get? a = some 1)
        ∧ ((RmDims.compute_shape axes shape).length : Int)
            = (shape.length : Int) - (axes.length : Int) := by
  unfold RmDims.solve
  split
  · rename_i hcond
    rw [Bool.and_eq_true, List.all_eq_true] at hcond
    obtain ⟨h1, h2⟩ := hcond
    simp only [beq_iff_eq] at h1 h2
    constructor
    · intro h
      exact ⟨(Option.some.inj h).symm, h1, h2⟩
    · intro h
      rw [h.1]
  · rename_i hcond
    rw [Bool.and_eq_true, List.all_eq_true] at hcond
    push_neg at hcond
    constructor
    · intro h
      exact absurd h (by simp)
    · intro h
      exact absurd (by simpa using h.2.2)
        (hcond fun a ha => by simpa using h.2.1 a ha)

/-- C3: for `RmDims` with axes `{0}` on an input fact of shape
`[1, 3, 224, 224]`, the inference rules yield an output fact of shape
`[3, 224, 224]`, rank 3 and the input's datum type, and `to_typed` lowers
the node to exactly one `RmDim` node with axis 0. -/
theorem RmDims.infer_example_rank4 (dt : DatumType) :
    RmDims.solve [0] dt [1, 3, 224, 224] = some (dt, [3, 224, 224])
      ∧ ([3, 224, 224] : List Nat).length = 3
      ∧ RmDims.to_typed [0] = [0] :=
  ⟨rfl, rfl, rfl⟩

/-- Witness for C3 at a concrete datum type. -/
theorem RmDims.infer_example_rank4_witness :
    RmDims.solve [0] DatumType.f32 [1, 3, 224, 224] = some (DatumType.f32, [3, 224, 224]) :=
  (RmDims.infer_example_rank4 DatumType.f32).1

/-- C7: whenever the rules of `RmDims` solve a concrete input fact, the output
fact has the input's datum type, rank equal to input rank minus the number of
removed axes, every removed input dimension is 1, the output shape is the
input shape with exactly the listed axes removed in order, and the output is
the unique fact satisfying every registered constraint. -/
theorem RmDims.rules_constrain_output (axes : List Nat) (dt : DatumType) (shape : List Nat)
    (o : DatumType × List Nat) (h : RmDims.solve axes dt shape = some o) :
    o.1 = dt
      ∧ (o.2.length : Int) = (shape.length : Int) - (axes.length : Int)
      ∧ (∀ a ∈ axes, shape.get? a = some 1)
      ∧ o.2 = removeAxesSpec axes shape 0
      ∧ (∀ c ∈ RmDims.rules axes, c.sat (dt, shape) o)
      ∧ (∀ o', (∀ c ∈ RmDims.rules axes, c.sat (dt, shape) o') → o' = o) := by
  rw [RmDims.solve_eq_some_iff] at h
  obtain ⟨ho, hdims, hrank⟩ := h
  subst ho
  refine ⟨rfl, hrank, hdims, compute_shape_eq_removeAxesSpec axes shape, ?_, ?_⟩
  · intro c hc
    simp only [RmDims.rules, List.mem_append, List.mem_cons, List.mem_map,
      List.mem_singleton, List.not_mem_nil, or_false] at hc
    rcases hc with ((rfl | rfl) | ⟨a, ha, rfl⟩) | rfl
    · rfl
    · exact hrank
    · exact hdims a ha
    · rfl
  · intro o' hsat
    have h1 : o'.1 = dt := hsat RmDimsConstraint.outDtEqInDt (by simp [RmDims.rules])
    have h2 : o'.2 = RmDims.compute_shape axes shape :=
      hsat (RmDimsConstraint.givenInShape axes) (by simp [RmDims.rules])
    exact Prod.ext h1 h2

/-- Witness for C7: axes `[0]`, input shape `[1, 5]`. -/
theorem RmDims.rules_constrain_output_witness :
    ((DatumType.f32, ([5] : List Nat)).2 = removeAxesSpec [0] [1, 5] 0) :=
  (RmDims.rules_constrain_output [0] DatumType.f32 [1, 5] (DatumType.f32, [5]) rfl).2.2.2.1

/-- C9: the rules of `RmDims` and the resulting constraint solving are pure:
identical operator configuration and identical concrete facts give identical
constraint lists and identical solver results. -/
theorem RmDims.rules_deterministic (axes₁ axes₂ : List Nat) (dt₁ dt₂ : DatumType)
    (shape₁ shape₂ : List Nat) (h₁ : axes₁ = axes₂) (h₂ : dt₁ = dt₂) (h₃ : shape₁ = shape₂) :
    RmDims.rules axes₁ = RmDims.rules axes₂
      ∧ RmDims.solve axes₁ dt₁ shape₁ = RmDims.solve axes₂ dt₂ shape₂ := by
  subst h₁; subst h₂; subst h₃
  exact ⟨rfl, rfl⟩

/-- Witness for C9 at a concrete configuration. -/
theorem RmDims.rules_deterministic_witness :
    RmDims.rules [0] = RmDims.rules [0]
      ∧ RmDims.solve [0] DatumType.f32 [1, 2] = RmDims.solve [0] DatumType.f32 [1, 2] :=
  RmDims.rules_deterministic [0] [0] DatumType.f32 DatumType.f32 [1, 2] [1, 2] rfl rfl rfl

/-- C5 (code bug): `RmDim::invariants` compares the removed axis against the
*output* counter instead of the input axis, so for `axis = 1` and input rank 3
it reports only the pair `(0, 0)` — the pair `(2, 1)` required by the claim is
missing, because after the counter reaches the removed axis the guard
`self.axis != out` stays false forever. -/
theorem RmDim.invariants_failing_axis1_rank3 :
    RmDim.invariants 1 3 = [⟨[some 0], [some 0], 1, true⟩]
      ∧ RmDim.invariants 1 3
          ≠ [⟨[some 0], [some 0], 1, true⟩, ⟨[some 2], [some 1], 1, true⟩] := by
  constructor
  · rfl
  · decide

/-- C6: with a fully-resolved input fact of rank `r` and `axis < r`,
`output_facts` returns exactly one fact, with the axis removed from the shape
(rank `r - 1`) and the datum type kept; and `eval` on any tensor of that shape
returns a tensor with exactly the predicted shape. -/
theorem RmDim.output_facts_exact (axis : Nat) (dt : DatumType) (shape : List Nat)
    (h : axis < shape.length) :
    RmDim.output_facts axis [⟨dt, shape⟩] = Except.ok [⟨dt, shape.eraseIdx axis⟩]
      ∧ (shape.eraseIdx axis).length = shape.length - 1
      ∧ ∀ t : Tensor, t.shape = shape →
          RmDim.eval axis [t] = Except.ok [⟨t.dt, shape.eraseIdx axis⟩] := by
  refine ⟨?_, ?_, ?_⟩
  · simp only [RmDim.output_facts, removeAxisShape, if_pos h]
    rfl
  · have := List.length_eraseIdx_add_one h
    omega
  · intro t ht
    simp only [RmDim.eval, Tensor.remove_axis, removeAxisShape, ht, if_pos h]
    rfl

/-- Witness for C6: axis 0 on shape `[1, 3]`. -/
theorem RmDim.output_facts_exact_witness :
    RmDim.output_facts 0 [⟨DatumType.f32, [1, 3]⟩]
      = Except.ok [⟨DatumType.f32, ([1, 3] : List Nat).eraseIdx 0⟩] :=
  (RmDim.output_facts_exact 0 DatumType.f32 [1, 3] (by decide)).1

/-- C2: for a stateless (purely evaluable) inference operator whose rule pass
leaves every input fact with a concrete value, and whose evaluation on those
concrete values succeeds, `infer` returns exactly the facts of the evaluated
values as output facts — identical to direct evaluation. -/
theorem inferOp_eager_eval_exact
    (eval_fn : List Tensor → Except ErrKind (List Tensor))
    (infer_facts : List InferenceFact → List InferenceFact → List InferenceFact →
      Except ErrKind (List InferenceFact × List InferenceFact × List InferenceFact))
    (inputs outputs observed : List InferenceFact)
    (ii io obs : List InferenceFact) (vals outs : List Tensor)
    (hrules : infer_facts inputs outputs observed = Except.ok (ii, io, obs))
    (hconc : concretizeAll ii = some vals)
    (heval : eval_fn vals = Except.ok outs) :
    inferOp (some eval_fn) infer_facts inputs outputs observed
      = Except.ok (ii, outs.map factOfTensor, obs) := by
  simp [inferOp, hrules, hconc, heval, Except.bind]

/-- Witness for C2: one input fact with concrete value, an evaluator that
drops the leading unit dimension. -/
theorem inferOp_eager_eval_exact_witness :
    inferOp (some dropLeadingAxisEval)
        (fun i _ o => Except.ok (i, [], o))
        [⟨some DatumType.f32, some [1, 2], some ⟨DatumType.f32, [1, 2]⟩⟩] [] []
      = Except.ok ([⟨some DatumType.f32, some [1, 2], some ⟨DatumType.f32, [1, 2]⟩⟩],
          [⟨some DatumType.f32, some [2], some ⟨DatumType.f32, [2]⟩⟩], []) :=
  inferOp_eager_eval_exact dropLeadingAxisEval
    (fun i _ o => Except.ok (i, [], o))
    [⟨some DatumType.f32, some [1, 2], some ⟨DatumType.f32, [1, 2]⟩⟩] [] []
    [⟨some DatumType.f32, some [1, 2], some ⟨DatumType.f32, [1, 2]⟩⟩] []
    [] [⟨DatumType.f32, [1, 2]⟩] [⟨DatumType.f32, [2]⟩] rfl rfl rfl

/-- C8: when eager evaluation fails with the streaming-tensor error kind, the
error is swallowed and `infer` returns the rule-derived facts; any other
eager-evaluation error is propagated as a failure of `infer`. -/
theorem inferOp_stream_error_swallowed
    (eval_fn : List Tensor → Except ErrKind (List Tensor))
    (infer_facts : List InferenceFact → List InferenceFact → List InferenceFact →
      Except ErrKind (List InferenceFact × List InferenceFact × List InferenceFact))
    (inputs outputs observed : List InferenceFact)
    (ii io obs : List InferenceFact) (vals : List Tensor) (e : ErrKind)
    (hrules : infer_facts inputs outputs observed = Except.ok (ii, io, obs))
    (hconc : concretizeAll ii = some vals)
    (heval : eval_fn vals = Except.error e) :
    (e = ErrKind.streamTensor →
        inferOp (some eval_fn) infer_facts inputs outputs observed
          = Except.ok (ii, io, obs))
      ∧ (e = ErrKind.other →
          inferOp (some eval_fn) infer_facts inputs outputs observed
            = Except.error e) := by
  constructor
  · intro he
    subst he
    simp [inferOp, hrules, hconc, heval, Except.bind]
  · intro he
    subst he
    simp [inferOp, hrules, hconc, heval, Except.bind]

/-- Witness for C8: an evaluator failing with the streaming-tensor kind is
swallowed. -/
theorem inferOp_stream_error_swallowed_witness :
    inferOp (some fun _ => Except.error ErrKind.streamTensor)
        (fun i t o => Except.ok (i, t, o))
        [⟨none, none, some ⟨DatumType.f32, []⟩⟩] [] []
      = Except.ok ([⟨none, none, some ⟨DatumType.f32, []⟩⟩], [], []) :=
  (inferOp_stream_error_swallowed (fun _ => Except.error ErrKind.streamTensor)
    (fun i t o => Except.ok (i, t, o))
    [⟨none, none, some ⟨DatumType.f32, []⟩⟩] [] []
    [⟨none, none, some ⟨DatumType.f32, []⟩⟩] [] []
    [⟨DatumType.f32, []⟩] ErrKind.streamTensor rfl rfl rfl).1 rfl

/-- Successful `mapping[&o]` collection: same length, pointwise images, and
every source outlet present in the mapping. -/
theorem lookupAll_ok (m : Mapping) (os vs : List OutletId)
    (h : lookupAll m os = Except.ok vs) :
    vs.length = os.length
      ∧ (∀ k, k < os.length → m (os.getD k ⟨0, 0⟩) = some (vs.getD k ⟨0, 0⟩))
      ∧ (∀ o ∈ os, (m o).isSome) := by
  induction os generalizing vs with
  | nil =>
    cases h
    simp
  | cons o rest ih =>
    unfold lookupAll at h
    cases hm : m o with
    | none => rw [hm] at h; cases h
    | some v =>
      rw [hm] at h
      cases hr : lookupAll m rest with
      | error e => rw [hr] at h; cases h
      | ok vs' =>
        rw [hr] at h
        cases h
        obtain ⟨hlen, hpt, hsome⟩ := ih vs' hr
        refine ⟨by simp [hlen], ?_, ?_⟩
        · intro k hk
          cases k with
          | zero => simpa using hm
          | succ k' => simpa using hpt k' (by simpa using hk)
        · intro x hx
          rcases List.mem_cons.1 hx with rfl | hx'
          · simp [hm]
          · exact hsome x hx'

/-- C1: a successful translation rebuilds the target's declared inputs as
exactly the source's declared inputs mapped through the recorded mapping, in
the source's order (same length, pointwise), and likewise the outputs; every
declared source input — used or not — is present in the mapping. -/
theorem translate_preserves_interface {σ : Type} (strat : Strategy σ) (init : σ)
    (source : SModel) (tm : TargetModel σ × Mapping)
    (h : translate_model_with_mappings strat init source = Except.ok tm) :
    lookupAll tm.2 source.inputs = Except.ok tm.1.inputs
      ∧ lookupAll tm.2 source.outputs = Except.ok tm.1.outputs
      ∧ tm.1.inputs.length = source.inputs.length
      ∧ tm.1.outputs.length = source.outputs.length
      ∧ (∀ k, k < source.inputs.length →
          tm.2 (source.inputs.getD k ⟨0, 0⟩) = some (tm.1.inputs.getD k ⟨0, 0⟩))
      ∧ (∀ k, k < source.outputs.length →
          tm.2 (source.outputs.getD k ⟨0, 0⟩) = some (tm.1.outputs.getD k ⟨0, 0⟩))
      ∧ (∀ i ∈ source.inputs, (tm.2 i).isSome) := by
  unfold translate_model_with_mappings at h
  cases h1 : source.evalOrder.foldlM (translateOneNode strat source)
      ((⟨init, [], [], fun _ => none⟩ : TargetModel σ), (fun _ => none : Mapping)) with
  | error e => rw [h1] at h; cases h
  | ok tm1 =>
    simp only [h1] at h
    cases h2 : source.inputs.foldlM (translateUselessInput strat source) tm1 with
    | error e => simp only [h2] at h; cases h
    | ok tm2 =>
      simp only [h2] at h
      cases h3 : lookupAll tm2.2 source.inputs with
      | error e => simp only [h3] at h; cases h
      | ok newInputs =>
        simp only [h3] at h
        cases h4 : lookupAll tm2.2 source.outputs with
        | error e => simp only [h4] at h; cases h
        | ok newOutputs =>
          simp only [h4] at h
          cases h
          obtain ⟨hl1, hp1, hs1⟩ := lookupAll_ok tm2.2 source.inputs newInputs h3
          obtain ⟨hl2, hp2, _⟩ := lookupAll_ok tm2.2 source.outputs newOutputs h4
          exact ⟨h3, h4, hl1, hl2, hp1, hp2, hs1⟩

/-- Witness for C1: the concrete translation above succeeds and its declared
inputs are the source's inputs mapped through the recorded mapping. -/
theorem translate_preserves_interface_witness :
    lookupAll wTranslated.2 wSource.inputs = Except.ok wTranslated.1.inputs :=
  (translate_preserves_interface wStrategy () wSource wTranslated rfl).1

/-- C10: during the useless-input loop, a still-unmapped declared input is
mapped to `outlets[0]` of its node's translation, regardless of the input's
own slot index; an empty outlet list makes the indexing panic rather than
produce an error value. End-to-end, for a source whose topological walk is
empty (its single declared input feeds nothing), `translate_model_with_mappings`
panics when the strategy returns no outlets, and otherwise records
`input ↦ outlets[0]`. -/
theorem translate_useless_input_head {σ : Type} (strat : Strategy σ) (init : σ)
    (source : SModel) (t : TargetModel σ) (m : Mapping) (i : OutletId)
    (lbl : OutletId → Option Nat) (hunmapped : m i = none) :
    (∀ st', strat source i.node t.state m = Except.ok ([], st') →
        translateUselessInput strat source (t, m) i = Except.error Failure.panic)
      ∧ (∀ o rest st', strat source i.node t.state m = Except.ok (o :: rest, st') →
          translateUselessInput strat source (t, m) i
            = Except.ok ({ t with state := st' }, m.update i o))
      ∧ (∀ st', strat ⟨[], [i], [i], lbl⟩ i.node init (fun _ => none) = Except.ok ([], st') →
          translate_model_with_mappings strat init ⟨[], [i], [i], lbl⟩
            = Except.error Failure.panic)
      ∧ (∀ o rest st',
          strat ⟨[], [i], [i], lbl⟩ i.node init (fun _ => none) = Except.ok (o :: rest, st') →
          ∃ tm, translate_model_with_mappings strat init ⟨[], [i], [i], lbl⟩ = Except.ok tm
            ∧ tm.2 i = some o ∧ tm.1.inputs = [o]) := by
  refine ⟨?_, ?_, ?_, ?_⟩
  · intro st' hstrat
    simp [translateUselessInput, hunmapped, hstrat]
  · intro o rest st' hstrat
    simp [translateUselessInput, hunmapped, hstrat]
  · intro st' hstrat
    simp [translate_model_with_mappings, List.foldlM, translateUselessInput, hstrat,
      Pure.pure, Except.pure, Bind.bind, Except.bind]
  · intro o rest st' hstrat
    refine ⟨({ state := st', inputs := [o], outputs := [o], labels := fun _ => none },
      Mapping.update (fun _ => none) i o), ?_, ?_, ?_⟩
    · simp [translate_model_with_mappings, List.foldlM, translateUselessInput, hstrat,
        lookupAll, Mapping.update, Pure.pure, Except.pure, Bind.bind, Except.bind]
    · simp [Mapping.update]
    · simp [Mapping.update]

/-- If every element checks without error and some element checks false, the
short-circuiting any-bad scan reports true. -/
theorem anyBadAux_eq_true {α : Type} (f : α → Except Failure Bool) (l : List α)
    (hnoerr : ∀ x ∈ l, ∃ b, f x = Except.ok b)
    (hex : ∃ x ∈ l, f x = Except.ok false) :
    anyBadAux f l = Except.ok true := by
  induction l with
  | nil => obtain ⟨x, hx, _⟩ := hex; cases hx
  | cons c rest ih =>
    obtain ⟨b, hb⟩ := hnoerr c (List.mem_cons_self c rest)
    cases b with
    | false => simp [anyBadAux, hb]
    | true =>
      have hex' : ∃ x ∈ rest, f x = Except.ok false := by
        obtain ⟨x, hx, hfx⟩ := hex
        rcases List.mem_cons.1 hx with rfl | hx'
        · rw [hb] at hfx; cases hfx
        · exact ⟨x, hx', hfx⟩
      have := ih (fun x hx => hnoerr x (List.mem_cons_of_mem c hx)) hex'
      simp [anyBadAux, hb, this]

/-- If every element checks true, the any-bad scan reports false. -/
theorem anyBadAux_eq_false {α : Type} (f : α → Except Failure Bool) (l : List α)
    (hall : ∀ x ∈ l, f x = Except.ok true) :
    anyBadAux f l = Except.ok false := by
  induction l with
  | nil => rfl
  | cons c rest ih =>
    have hb := hall c (List.mem_cons_self c rest)
    have := ih fun x hx => hall x (List.mem_cons_of_mem c hx)
    simp [anyBadAux, hb, this]

/-- If every element checks without error and some element checks false, the
short-circuiting all-good scan reports false. -/
theorem allGoodAux_eq_false {α : Type} (f : α → Except Failure Bool) (l : List α)
    (hnoerr : ∀ x ∈ l, ∃ b, f x = Except.ok b)
    (hex : ∃ x ∈ l, f x = Except.ok false) :
    allGoodAux f l = Except.ok false := by
  induction l with
  | nil => obtain ⟨x, hx, _⟩ := hex; cases hx
  | cons c rest ih =>
    obtain ⟨b, hb⟩ := hnoerr c (List.mem_cons_self c rest)
    cases b with
    | false => simp [allGoodAux, hb]
    | true =>
      have hex' : ∃ x ∈ rest, f x = Except.ok false := by
        obtain ⟨x, hx, hfx⟩ := hex
        rcases List.mem_cons.1 hx with rfl | hx'
        · rw [hb] at hfx; cases hfx
        · exact ⟨x, hx', hfx⟩
      have := ih (fun x hx => hnoerr x (List.mem_cons_of_mem c hx)) hex'
      simp [allGoodAux, hb, this]

/-- C4: `RmDim::declutter` proposes no patch (and leaves the graph unchanged)
whenever the axis tracking reports some creator that is not an `AddDim`
introducing exactly the tracked axis, or some destructor that is not an
`RmDim` removing exactly the tracked axis. -/
theorem RmDim.declutter_none_when_entangled (m : TModel) (node : TNode) (tr : AxisTracking)
    (hassert : tr.destructors.contains (⟨node.id, 0⟩ : InletId) = true)
    (hnoerr_c : ∀ c ∈ tr.creators, ∃ b, creatorIsMatchingAddDim m tr c = Except.ok b)
    (hnoerr_d : ∀ d ∈ tr.destructors, ∃ b, destructorIsMatchingRmDim m tr d = Except.ok b)
    (hbad : (∃ c ∈ tr.creators, creatorIsMatchingAddDim m tr c = Except.ok false)
      ∨ (∃ d ∈ tr.destructors, destructorIsMatchingRmDim m tr d = Except.ok false)) :
    RmDim.declutter m node tr = Except.ok none := by
  unfold RmDim.declutter
  rw [if_pos hassert]
  by_cases hc : ∃ c ∈ tr.creators, creatorIsMatchingAddDim m tr c = Except.ok false
  · rw [show anyCreatorBad m tr tr.creators = Except.ok true from
      anyBadAux_eq_true _ _ hnoerr_c hc]
  · have hallc : ∀ c ∈ tr.creators, creatorIsMatchingAddDim m tr c = Except.ok true := by
      intro c hmem
      obtain ⟨b, hb⟩ := hnoerr_c c hmem
      cases b with
      | true => exact hb
      | false => exact absurd ⟨c, hmem, hb⟩ hc
    rw [show anyCreatorBad m tr tr.creators = Except.ok false from
      anyBadAux_eq_false _ _ hallc]
    have hd : ∃ d ∈ tr.destructors, destructorIsMatchingRmDim m tr d = Except.ok false := by
      rcases hbad with hbc | hbd
      · exact absurd hbc hc
      · exact hbd
    rw [show allDestructorsGood m tr tr.destructors = Except.ok false from
      allGoodAux_eq_false _ _ hnoerr_d hd]

/-- Witness for C4: a creator that is not an `AddDim` makes declutter return
no patch. -/
theorem RmDim.declutter_none_when_entangled_witness :
    RmDim.declutter c4Model c4Node c4Tracking = Except.ok none := by
  have h := RmDim.declutter_none_when_entangled c4Model c4Node c4Tracking rfl
    (fun c hc => by
      rcases List.mem_singleton.1 hc with rfl
      exact ⟨false, rfl⟩)
    (fun d hd => by
      rcases List.mem_singleton.1 hd with rfl
      exact ⟨true, rfl⟩)
    (Or.inl ⟨⟨5, 0⟩, List.mem_singleton.2 rfl, rfl⟩)
  exact h

/-- Witness for C10: with an empty mapping, an input outlet at slot 5 whose
node translates to an empty outlet list makes the useless-input loop panic. -/
theorem translate_useless_input_head_witness :
    translateUselessInput c10Strategy wSource
        ((⟨(), [], [], fun _ => none⟩ : TargetModel Unit), (fun _ => none : Mapping)) ⟨0, 5⟩
      = Except.error Failure.panic :=
  (translate_useless_input_head c10Strategy () wSource ⟨(), [], [], fun _ => none⟩
    (fun _ => none) ⟨0, 5⟩ (fun _ => none) rfl).1 () rfl
